import Mathlib

/-!
Verification of the dwellings-commenced data pipeline (`data_module.py`,
`main.py`) against its specification.

The pipeline is shallowly embedded:
* raw CSV cells become `String`s; a data row is a `RawRow` (the three cells
  selected by `usecols=[0, 1, 2]`);
* `load_dwellings_csv` is the filter → coerce → sort pipeline on the list of
  lines after the skipped title row (`skiprows=1`);
* `add_growth_and_ma` adds the derived growth and moving-average fields;
* `summarize_series` is the summary reducer;
* `export_cleaned` is the CSV re-export of the base columns consumed on
  re-load (the loader reads only the first three columns of the export).

Machine floats of the growth columns are modelled by `FVal`: an exact
rational for finite results together with the IEEE special values `inf`,
`ninf` and `nan` that `pct_change` produces on a zero base and on the
undefined leading positions.  Moving averages never divide by zero, so they
are plain rationals.
-/

/-! ### Characters and digits -/

/-- Digits `[0-9]`, as tested both by the regex `\d` and by `int()` parsing. -/
def isDig (c : Char) : Bool := c.isDigit

/-- Numeric value of a digit character. -/
def digVal (c : Char) : Nat := c.toNat - 48

/-- The decimal digit character for `d < 10` (used by `str(int)`). -/
def digChar : Nat → Char
  | 0 => '0' | 1 => '1' | 2 => '2' | 3 => '3' | 4 => '4'
  | 5 => '5' | 6 => '6' | 7 => '7' | 8 => '8' | _ => '9'

/-! ### Python `int(...)` on comma-stripped cell text

The loader runs `df[col].str.replace(",", "", regex=False).astype(int)`:
every comma is removed and the residue is parsed as a Python integer
(optional sign, then decimal digits).  Parse failure raises, which the
embedding reports as `none` at the cell level. -/

/-- Model of `str.replace(",", "", regex=False)`: delete every comma. -/
def stripCommas (s : String) : String := ⟨s.toList.filter (fun c => c ≠ ',')⟩

/-- Digit-string value, most significant digit first. -/
def valDigs (cs : List Char) : Nat := cs.foldl (fun a c => 10 * a + digVal c) 0

/-- Parse a non-empty all-digit character list. -/
def parseNatDigits (cs : List Char) : Option Nat :=
  if !cs.isEmpty && cs.all isDig then some (valDigs cs) else none

/-- Python `int(s)` for the strings reaching `astype(int)`: an optional
sign followed by decimal digits.  (Surrounding whitespace and underscore
grouping, which CPython also accepts, never occur in this pipeline and are
not modelled.) -/
def parseIntPy (s : String) : Option ℤ :=
  match s.toList with
  | [] => none
  | c :: cs =>
    if c = '-' then (parseNatDigits cs).map (fun n => -(Int.ofNat n))
    else if c = '+' then (parseNatDigits cs).map Int.ofNat
    else (parseNatDigits (c :: cs)).map Int.ofNat

/-! ### Decimal rendering of integers (`df.to_csv` on an int64 column) -/

/-- Digits of `n`, most significant first; `[]` for `0`.  The first
argument is structural fuel (`n` itself suffices, since `n / 10 < n`). -/
def natDigsAux : Nat → Nat → List Char
  | 0, _ => []
  | fuel + 1, n => if n = 0 then [] else natDigsAux fuel (n / 10) ++ [digChar (n % 10)]

/-- Decimal digit string of a natural number. -/
def natDigits (n : Nat) : List Char := if n = 0 then ['0'] else natDigsAux n n

/-- Decimal `str(i)` for a Python int: decimal rendering with a leading `-` sign
for negatives, as written by `df.to_csv`. -/
def intToStr (i : ℤ) : String :=
  ⟨if i < 0 then '-' :: natDigits i.natAbs else natDigits i.natAbs⟩

/-! ### Period labels

The row filter keeps rows whose first cell matches
`^[A-Za-z]{3}-\d{2}$`; the loader then parses that cell with
`pd.to_datetime(..., format="%b-%y")`, i.e. a case-insensitive three-letter
month abbreviation, a hyphen and a two-digit year.  `%y` follows the POSIX
pivot used by `strptime`: `00–68 ↦ 2000–2068`, `69–99 ↦ 1969–1999`. -/

/-- The regex `^[A-Za-z]{3}-\d{2}$` of the row filter. -/
def periodPat (s : String) : Bool :=
  match s.toList with
  | [a, b, c, hy, d, e] => a.isAlpha && b.isAlpha && c.isAlpha && hy = '-' && isDig d && isDig e
  | _ => false

/-- Case-insensitive `%b` month-abbreviation table of `strptime`. -/
def monthAbbrev (a b c : Char) : Option Nat :=
  match a.toLower, b.toLower, c.toLower with
  | 'j', 'a', 'n' => some 1
  | 'f', 'e', 'b' => some 2
  | 'm', 'a', 'r' => some 3
  | 'a', 'p', 'r' => some 4
  | 'm', 'a', 'y' => some 5
  | 'j', 'u', 'n' => some 6
  | 'j', 'u', 'l' => some 7
  | 'a', 'u', 'g' => some 8
  | 's', 'e', 'p' => some 9
  | 'o', 'c', 't' => some 10
  | 'n', 'o', 'v' => some 11
  | 'd', 'e', 'c' => some 12
  | _, _, _ => none

/-- The `%y` two-digit-year pivot of `strptime`. -/
def pivotYear (yy : Nat) : Nat := if yy ≤ 68 then 2000 + yy else 1900 + yy

/-- Model of `pd.to_datetime(s, format="%b-%y")`, reduced to the `(year, month)`
pair that the pipeline observes (the day is always 1).  `none` models the
`ValueError` raised on a label that does not parse. -/
def parsePeriod (s : String) : Option (Nat × Nat) :=
  match s.toList with
  | [a, b, c, hy, d, e] =>
    if hy = '-' ∧ isDig d = true ∧ isDig e = true then
      (monthAbbrev a b c).map (fun m => (pivotYear (10 * digVal d + digVal e), m))
    else none
  | _ => none

/-- The two-digit-year value written in a (well-formed) period label. -/
def yyOf (s : String) : Nat :=
  match s.toList with
  | [_, _, _, _, d, e] => 10 * digVal d + digVal e
  | _ => 0

/-! ### Data model -/

/-- One data line of the delimited input: the three cells selected by
`usecols=[0, 1, 2]` (period label, trend text, seasonally-adjusted text). -/
structure RawRow where
  period : String
  trendText : String
  saText : String
deriving DecidableEq, Repr

/-- A cleaned observation: the base columns `Period`, `Trend`,
`Seasonally adjusted` plus the derived `Date` (kept as year and month; the
day is always the 1st) and `Year`.  The `Quarter` string column is not
modelled: no claim mentions it. -/
structure Obs where
  period : String
  trend : ℤ
  sa : ℤ
  year : Nat
  month : Nat
deriving DecidableEq, Repr

/-- The fatal `ValueError` raised by `astype(int)` / `to_datetime` when a
row that survived the filter fails coercion. -/
inductive LoadError where
  | valueError
deriving DecidableEq, Repr

/-- Row filter: `df["Period"].str.match(r"^[A-Za-z]{3}-\d{2}$", na=False)`. -/
def rowFilter (r : RawRow) : Bool := periodPat r.period

/-- Coercion of one surviving row: both numeric cells through
comma-stripping and `int()`, the period cell through `%b-%y` parsing.
Any failure is the fatal `ValueError` (pandas raises it column-wise over
the whole frame; only failure versus success is observable, so the
embedding checks row-wise). -/
def coerceRow (r : RawRow) : Except LoadError Obs :=
  match parseIntPy (stripCommas r.trendText), parseIntPy (stripCommas r.saText),
      parsePeriod r.period with
  | some t, some v, some (y, m) => .ok ⟨r.period, t, v, y, m⟩
  | _, _, _ => .error .valueError

/-- Coerce every surviving row; the first failure aborts the load. -/
def coerceAll : List RawRow → Except LoadError (List Obs)
  | [] => .ok []
  | r :: rs =>
    match coerceRow r, coerceAll rs with
    | .ok o, .ok os => .ok (o :: os)
    | _, _ => .error .valueError

/-- Sort key of `sort_values("Date")`: dates are (year, month-1) in months. -/
def dateKey (o : Obs) : Nat := o.year * 12 + (o.month - 1)

/-- The order used by `sort_values("Date")`. -/
def obsLe (a b : Obs) : Prop := dateKey a ≤ dateKey b

instance : DecidableRel obsLe := fun a b => inferInstanceAs (Decidable (dateKey a ≤ dateKey b))

instance : IsTotal Obs obsLe := ⟨fun a b => Nat.le_total (dateKey a) (dateKey b)⟩

instance : IsTrans Obs obsLe := ⟨fun _ _ _ => Nat.le_trans⟩

/-- The loader body after the title skip: filter the data rows, coerce the
survivors, sort ascending by date.  The code's `sort_values("Date")` uses
numpy's default quicksort, whose order among rows with *equal* dates is
unspecified (the kind is documented as not stable); the embedding computes
with an insertion sort, and no theorem below relies on the model's tie
order: every conclusion about a load result is either order-insensitive
(membership, emptiness, failure) or stated for strictly increasing dates,
where every correct sort returns the same list. -/
def load_rows (rows : List RawRow) : Except LoadError (List Obs) :=
  (coerceAll (rows.filter rowFilter)).map (List.insertionSort obsLe)

/-- The loader `load_dwellings_csv`: `skiprows=1` drops the title line, then the
filter → coerce → sort pipeline runs on the remaining lines. -/
def load_dwellings_csv (lines : List RawRow) : Except LoadError (List Obs) :=
  load_rows (lines.drop 1)

/-! ### Derived metrics (`add_growth_and_ma`) -/

/-- A float64 value of the growth columns: finite (exact rational), the two
infinities, or NaN. -/
inductive FVal where
  | nan
  | inf
  | ninf
  | fin (q : ℚ)
deriving DecidableEq, Repr

/-- Growth `(cur / base - 1) * 100` with IEEE zero-division semantics, as computed
by `Series.pct_change(...) * 100` on integer columns. -/
def pctVal (cur base : ℤ) : FVal :=
  if base = 0 then
    if cur = 0 then .nan else if 0 < cur then .inf else .ninf
  else .fin (((cur : ℚ) / (base : ℚ) - 1) * 100)

/-- Model of `pct_change(k) * 100` at position `i`: NaN for the first `k` positions,
otherwise the percentage change against the value `k` positions back. -/
def pctAt (v : List ℤ) (k i : Nat) : FVal :=
  if k ≤ i then pctVal (v.getD i 0) (v.getD (i - k) 0) else .nan

/-- The trailing window of `rolling(4, min_periods=1)` at position `i`: the
last up-to-4 of the first `i + 1` values. -/
def window4 (v : List ℤ) (i : Nat) : List ℤ := (v.take (i + 1)).drop (i + 1 - 4)

/-- Model of `rolling(4, min_periods=1).mean()` at position `i`. -/
def rmean4 (v : List ℤ) (i : Nat) : ℚ :=
  (((window4 v i).map (Int.cast : ℤ → ℚ)).sum) / ((window4 v i).length : ℚ)

/-- An observation together with the five derived metric fields added by
`add_growth_and_ma`. -/
structure DObs where
  period : String
  trend : ℤ
  sa : ℤ
  year : Nat
  month : Nat
  trend_qoq_pct : FVal
  sa_qoq_pct : FVal
  trend_yoy_pct : FVal
  sa_yoy_pct : FVal
  trend_4q_ma : ℚ
  sa_4q_ma : ℚ
deriving DecidableEq, Repr

/-- Default observation (never observed: every access is in bounds). -/
def obsDflt : Obs := ⟨"", 0, 0, 0, 0⟩

/-- Default derived observation (never observed). -/
def dobsDflt : DObs := ⟨"", 0, 0, 0, 0, .nan, .nan, .nan, .nan, 0, 0⟩

/-- Element `i` of the derived frame. -/
def mkDerived (s : List Obs) (i : Nat) : DObs :=
  let tv := s.map (fun o => o.trend)
  let sv := s.map (fun o => o.sa)
  let o := s.getD i obsDflt
  { period := o.period, trend := o.trend, sa := o.sa, year := o.year, month := o.month
    trend_qoq_pct := pctAt tv 1 i
    sa_qoq_pct := pctAt sv 1 i
    trend_yoy_pct := pctAt tv 4 i
    sa_yoy_pct := pctAt sv 4 i
    trend_4q_ma := rmean4 tv i
    sa_4q_ma := rmean4 sv i }

/-- The deriver `add_growth_and_ma`: same rows, five derived columns added. -/
def add_growth_and_ma (s : List Obs) : List DObs :=
  (List.range s.length).map (mkDerived s)

/-- Positional access into a derived series. -/
def dAt (d : List DObs) (i : Nat) : DObs := d.getD i dobsDflt

/-! ### Summary reducer (`summarize_series`) -/

/-- The error raised when the reducer is invoked on an empty series (in
the source, `df.iloc[-1]` raises; the spec's taxonomy names it
`EmptySeriesError`). -/
inductive SummarizeError where
  | emptySeriesError
deriving DecidableEq, Repr

/-- Model of `float(x) if pd.notna(x) else None`: NaN becomes `None`; every other
float (the infinities included) passes through. -/
def notnaOpt (x : FVal) : Option FVal := if x = .nan then none else some x

/-- Largest element of a non-empty integer list (`Series.max()`). -/
def listMax : List ℤ → ℤ
  | [] => 0
  | [a] => a
  | a :: b :: t => max a (listMax (b :: t))

/-- Smallest element of a non-empty integer list (`Series.min()`). -/
def listMin : List ℤ → ℤ
  | [] => 0
  | [a] => a
  | a :: b :: t => min a (listMin (b :: t))

/-- Index of the first occurrence of `x` (`Series.idxmax` / `idxmin`
return the first row label attaining the extremum; after `reset_index`
labels are positions). -/
def idxOfV (x : ℤ) : List ℤ → Nat
  | [] => 0
  | a :: t => if a = x then 0 else idxOfV x t + 1

/-- The summary dictionary built by `summarize_series`. -/
structure Summary where
  latest_period : String
  latest_trend : ℤ
  latest_sa : ℤ
  trend_qoq_pct : Option FVal
  sa_qoq_pct : Option FVal
  trend_yoy_pct : Option FVal
  sa_yoy_pct : Option FVal
  trend_peak : ℤ
  trend_peak_period : String
  sa_peak : ℤ
  sa_peak_period : String
  trend_trough : ℤ
  trend_trough_period : String
  sa_trough : ℤ
  sa_trough_period : String
deriving DecidableEq, Repr

/-- The reducer `summarize_series`: latest values and growth rates from the last row,
series-wide extrema with the period of their first occurrence. -/
def summarize_series (d : List DObs) : Except SummarizeError Summary :=
  match d with
  | [] => .error .emptySeriesError
  | a :: t =>
    let l := a :: t
    let last := l.getLast (List.cons_ne_nil a t)
    let tv := l.map (fun o => o.trend)
    let sv := l.map (fun o => o.sa)
    let pv := l.map (fun o => o.period)
    .ok
      { latest_period := last.period
        latest_trend := last.trend
        latest_sa := last.sa
        trend_qoq_pct := notnaOpt last.trend_qoq_pct
        sa_qoq_pct := notnaOpt last.sa_qoq_pct
        trend_yoy_pct := notnaOpt last.trend_yoy_pct
        sa_yoy_pct := notnaOpt last.sa_yoy_pct
        trend_peak := listMax tv
        trend_peak_period := pv.getD (idxOfV (listMax tv) tv) ""
        sa_peak := listMax sv
        sa_peak_period := pv.getD (idxOfV (listMax sv) sv) ""
        trend_trough := listMin tv
        trend_trough_period := pv.getD (idxOfV (listMin tv) tv) ""
        sa_trough := listMin sv
        sa_trough_period := pv.getD (idxOfV (listMin sv) sv) "" }

/-! ### Export (`export_cleaned` in `main.py`) -/

/-- Model of `df.to_csv(out_csv, index=False)`, restricted to the three leading
columns that a re-load consumes (`usecols=[0, 1, 2]` ignores the rest):
a header line `Period,Trend,Seasonally adjusted`, then one line per row
with the period label and the two integers in decimal. -/
def export_cleaned (d : List DObs) : List RawRow :=
  ⟨"Period", "Trend", "Seasonally adjusted"⟩ ::
    d.map (fun o => ⟨o.period, intToStr o.trend, intToStr o.sa⟩)

/-! ### List access helpers -/

lemma getD_range_map {β : Type} (f : Nat → β) {n i : Nat} (h : i < n) (d : β) :
    ((List.range n).map f).getD i d = f i := by
  rw [List.getD_eq_getElem?_getD, List.getElem?_map, List.getElem?_range h]
  rfl

lemma getD_map_lt {α β : Type} (f : α → β) {l : List α} {i : Nat} (h : i < l.length)
    (d : β) (d' : α) : (l.map f).getD i d = f (l.getD i d') := by
  rw [List.getD_eq_getElem?_getD, List.getElem?_map, List.getElem?_eq_getElem h,
    List.getD_eq_getElem?_getD, List.getElem?_eq_getElem h]
  rfl

lemma map_getD_range {α β : Type} (l : List α) (f : α → β) (d : α) :
    (List.range l.length).map (fun i => f (l.getD i d)) = l.map f := by
  induction l with
  | nil => rfl
  | cons a t ih =>
    rw [List.length_cons, List.range_succ_eq_map, List.map_cons, List.map_map, List.map_cons]
    refine congrArg₂ _ rfl ?_
    have hc : ((fun i => f ((a :: t).getD i d)) ∘ Nat.succ) = (fun i => f (t.getD i d)) := by
      funext i; rfl
    rw [hc, ih]

lemma drop_take_eq_range'_map {α : Type} (l : List α) (d : α) :
    ∀ (b a : Nat), a + b ≤ l.length →
      (l.drop a).take b = (List.range' a b).map (fun j => l.getD j d) := by
  intro b
  induction b with
  | zero => intro a _; simp
  | succ b ih =>
    intro a h
    have ha : a < l.length := by omega
    have hd : l.getD a d = l[a] := by
      rw [List.getD_eq_getElem?_getD, List.getElem?_eq_getElem ha]; rfl
    rw [List.drop_eq_getElem_cons ha, List.take_succ_cons, List.range'_succ,
      List.map_cons, hd, ih (a + 1) (by omega)]

lemma list_sum_range (f : Nat → ℚ) (b : Nat) :
    ((List.range b).map f).sum = ∑ j ∈ Finset.range b, f j := by
  induction b with
  | zero => simp
  | succ b ih => rw [List.range_succ, List.map_append, List.sum_append,
      Finset.sum_range_succ, ih]; simp

lemma list_sum_range' (f : Nat → ℚ) (a b : Nat) :
    ((List.range' a b).map f).sum = ∑ j ∈ Finset.range b, f (a + j) := by
  rw [List.range'_eq_map_range, List.map_map, list_sum_range]
  rfl

/-! ### Digit and integer print/parse round trip -/

lemma digVal_digChar {d : Nat} (h : d < 10) : digVal (digChar d) = d := by
  interval_cases d <;> rfl

lemma isDig_digChar {d : Nat} (h : d < 10) : isDig (digChar d) = true := by
  interval_cases d <;> rfl

lemma valDigs_append (l : List Char) (c : Char) :
    valDigs (l ++ [c]) = 10 * valDigs l + digVal c := by
  simp [valDigs, List.foldl_append]

lemma natDigsAux_all {fuel n : Nat} (h : n ≤ fuel) :
    (natDigsAux fuel n).all isDig = true := by
  induction fuel generalizing n with
  | zero => simp [natDigsAux]
  | succ fuel ih =>
    by_cases h0 : n = 0
    · simp [natDigsAux, h0]
    · have : n / 10 ≤ fuel := by
        have := Nat.div_lt_self (Nat.pos_of_ne_zero h0) (by norm_num : (1:Nat) < 10)
        omega
      simp only [natDigsAux, if_neg h0, List.all_append, ih this, Bool.true_and,
        List.all_cons, List.all_nil, Bool.and_true]
      exact isDig_digChar (Nat.mod_lt _ (by norm_num))

lemma valDigs_natDigsAux {fuel n : Nat} (h : n ≤ fuel) :
    valDigs (natDigsAux fuel n) = n := by
  induction fuel generalizing n with
  | zero =>
    have : n = 0 := by omega
    simp [natDigsAux, this, valDigs]
  | succ fuel ih =>
    by_cases h0 : n = 0
    · simp [natDigsAux, h0, valDigs]
    · have hle : n / 10 ≤ fuel := by
        have := Nat.div_lt_self (Nat.pos_of_ne_zero h0) (by norm_num : (1:Nat) < 10)
        omega
      rw [natDigsAux, if_neg h0, valDigs_append, ih hle,
        digVal_digChar (Nat.mod_lt _ (by norm_num))]
      omega

lemma natDigits_all (n : Nat) : (natDigits n).all isDig = true := by
  by_cases h0 : n = 0
  · subst h0; decide
  · simp only [natDigits, if_neg h0]; exact natDigsAux_all le_rfl

lemma natDigits_ne_nil (n : Nat) : natDigits n ≠ [] := by
  by_cases h0 : n = 0
  · simp [natDigits, h0]
  · simp only [natDigits, if_neg h0]
    obtain ⟨fuel, rfl⟩ : ∃ f, n = f + 1 := ⟨n - 1, by omega⟩
    simp [natDigsAux]

lemma valDigs_natDigits (n : Nat) : valDigs (natDigits n) = n := by
  by_cases h0 : n = 0
  · subst h0; decide
  · simp only [natDigits, if_neg h0]; exact valDigs_natDigsAux le_rfl

lemma parseNatDigits_natDigits (n : Nat) : parseNatDigits (natDigits n) = some n := by
  have h1 : (natDigits n).isEmpty = false := by
    cases h : natDigits n with
    | nil => exact absurd h (natDigits_ne_nil n)
    | cons a t => rfl
  rw [parseNatDigits, h1, natDigits_all n]
  simp [valDigs_natDigits]

lemma isDig_ne_comma {c : Char} (h : isDig c = true) : ¬ c = ',' := by
  intro hc; subst hc; revert h; decide

lemma isDig_ne_minus {c : Char} (h : isDig c = true) : ¬ c = '-' := by
  intro hc; subst hc; revert h; decide

lemma isDig_ne_plus {c : Char} (h : isDig c = true) : ¬ c = '+' := by
  intro hc; subst hc; revert h; decide

lemma stripCommas_intToStr (i : ℤ) : stripCommas (intToStr i) = intToStr i := by
  have hdig : ∀ c ∈ natDigits i.natAbs, decide (¬ c = ',') = true := by
    intro c hc
    have := (List.all_eq_true.mp (natDigits_all i.natAbs)) c hc
    simpa using isDig_ne_comma this
  unfold stripCommas intToStr
  by_cases hneg : i < 0
  · simp only [if_pos hneg]
    refine congrArg _ ?_
    show List.filter _ ('-' :: natDigits i.natAbs) = _
    rw [List.filter_cons_of_pos (by decide), List.filter_eq_self.mpr hdig]
  · simp only [if_neg hneg]
    refine congrArg _ ?_
    show List.filter _ (natDigits i.natAbs) = _
    rw [List.filter_eq_self.mpr hdig]

lemma parseIntPy_intToStr (i : ℤ) : parseIntPy (intToStr i) = some i := by
  by_cases hneg : i < 0
  · have : intToStr i = ⟨'-' :: natDigits i.natAbs⟩ := by
      unfold intToStr; rw [if_pos hneg]
    rw [this]
    show parseIntPy ⟨'-' :: natDigits i.natAbs⟩ = some i
    unfold parseIntPy
    simp only [String.toList, if_pos, parseNatDigits_natDigits, Option.map_some']
    refine congrArg _ ?_
    simp only [Int.ofNat_eq_natCast]
    omega
  · have : intToStr i = ⟨natDigits i.natAbs⟩ := by
      unfold intToStr; rw [if_neg hneg]
    rw [this]
    obtain ⟨c, cs, hcons⟩ : ∃ c cs, natDigits i.natAbs = c :: cs := by
      cases h : natDigits i.natAbs with
      | nil => exact absurd h (natDigits_ne_nil _)
      | cons a t => exact ⟨a, t, rfl⟩
    have hdigc : isDig c = true := by
      have := List.all_eq_true.mp (natDigits_all i.natAbs)
      exact this c (by rw [hcons]; exact List.mem_cons_self c cs)
    rw [hcons]
    show parseIntPy ⟨c :: cs⟩ = some i
    unfold parseIntPy
    simp only [String.toList]
    rw [if_neg (isDig_ne_minus hdigc), if_neg (isDig_ne_plus hdigc), ← hcons,
      parseNatDigits_natDigits]
    simp only [Option.map_some']
    refine congrArg _ ?_
    simp only [Int.ofNat_eq_natCast]
    omega

/-! ### Coercion and loader facts -/

lemma coerceRow_ok {r : RawRow} {o : Obs} (h : coerceRow r = .ok o) :
    o.period = r.period ∧ parseIntPy (stripCommas r.trendText) = some o.trend ∧
      parseIntPy (stripCommas r.saText) = some o.sa ∧
      parsePeriod r.period = some (o.year, o.month) := by
  unfold coerceRow at h
  split at h
  · next t v y m ht hv hp =>
    cases h
    exact ⟨rfl, ht, hv, hp⟩
  · cases h

lemma coerceRow_of_fields {r : RawRow} {o : Obs} (hper : r.period = o.period)
    (ht : parseIntPy (stripCommas r.trendText) = some o.trend)
    (hv : parseIntPy (stripCommas r.saText) = some o.sa)
    (hp : parsePeriod r.period = some (o.year, o.month)) : coerceRow r = .ok o := by
  unfold coerceRow
  rw [ht, hv, hp]
  cases o
  simp only at hper
  rw [hper]

lemma coerceAll_ok_mem {l : List RawRow} {cs : List Obs} (h : coerceAll l = .ok cs) :
    ∀ o ∈ cs, ∃ r ∈ l, coerceRow r = .ok o := by
  induction l generalizing cs with
  | nil =>
    cases h
    intro o ho
    cases ho
  | cons r rs ih =>
    intro o ho
    unfold coerceAll at h
    cases h1 : coerceRow r with
    | error e => rw [h1] at h; cases h
    | ok o1 =>
      cases h2 : coerceAll rs with
      | error e => rw [h1, h2] at h; cases h
      | ok os =>
        rw [h1, h2] at h
        cases h
        rcases List.mem_cons.mp ho with rfl | hmem
        · exact ⟨r, List.mem_cons_self r rs, h1⟩
        · obtain ⟨r', hr', hc'⟩ := ih h2 o hmem
          exact ⟨r', List.mem_cons_of_mem r hr', hc'⟩

lemma coerceAll_map {f : Obs → RawRow} {s : List Obs}
    (h : ∀ o ∈ s, coerceRow (f o) = .ok o) : coerceAll (s.map f) = .ok s := by
  induction s with
  | nil => rfl
  | cons o t ih =>
    have h1 : coerceRow (f o) = .ok o := h o (List.mem_cons_self o t)
    have h2 : coerceAll (t.map f) = .ok t :=
      ih (fun o' ho' => h o' (List.mem_cons_of_mem o ho'))
    show coerceAll (f o :: t.map f) = .ok (o :: t)
    unfold coerceAll
    rw [h1, h2]

lemma coerceAll_error_of_mem {l : List RawRow} {r : RawRow} (hr : r ∈ l)
    (he : coerceRow r = .error .valueError) : coerceAll l = .error .valueError := by
  induction l with
  | nil => cases hr
  | cons a t ih =>
    rcases List.mem_cons.mp hr with rfl | hmem
    · show coerceAll (r :: t) = _
      unfold coerceAll
      rw [he]
    · show coerceAll (a :: t) = _
      unfold coerceAll
      rw [ih hmem]
      cases coerceRow a <;> rfl

lemma load_rows_ok_elim {rows : List RawRow} {s : List Obs}
    (h : load_rows rows = .ok s) :
    ∃ cs, coerceAll (rows.filter rowFilter) = .ok cs ∧ s = List.insertionSort obsLe cs := by
  unfold load_rows at h
  cases hc : coerceAll (rows.filter rowFilter) with
  | error e => rw [hc] at h; cases h
  | ok cs =>
    rw [hc] at h
    cases h
    exact ⟨cs, rfl, rfl⟩

lemma load_rows_ok_inv {rows : List RawRow} {s : List Obs} (h : load_rows rows = .ok s) :
    ∀ o ∈ s, ∃ r ∈ rows, rowFilter r = true ∧ coerceRow r = .ok o := by
  obtain ⟨cs, hc, rfl⟩ := load_rows_ok_elim h
  intro o ho
  have hmem : o ∈ cs := (List.perm_insertionSort obsLe cs).mem_iff.mp ho
  obtain ⟨r, hrf, hcr⟩ := coerceAll_ok_mem hc o hmem
  obtain ⟨hrl, hfil⟩ := List.mem_filter.mp hrf
  exact ⟨r, hrl, hfil, hcr⟩

lemma load_rows_ok_sorted {rows : List RawRow} {s : List Obs}
    (h : load_rows rows = .ok s) : List.Sorted obsLe s := by
  obtain ⟨cs, _, rfl⟩ := load_rows_ok_elim h
  exact List.sorted_insertionSort obsLe cs

/-! ### Extrema helpers -/

lemma listMax_cons (a : ℤ) {t : List ℤ} (h : t ≠ []) :
    listMax (a :: t) = max a (listMax t) := by
  cases t with
  | nil => exact absurd rfl h
  | cons b u => rfl

lemma listMin_cons (a : ℤ) {t : List ℤ} (h : t ≠ []) :
    listMin (a :: t) = min a (listMin t) := by
  cases t with
  | nil => exact absurd rfl h
  | cons b u => rfl

lemma le_listMax {v : List ℤ} {x : ℤ} (hx : x ∈ v) : x ≤ listMax v := by
  induction v with
  | nil => cases hx
  | cons a t ih =>
    cases t with
    | nil =>
      rcases List.mem_cons.mp hx with rfl | h
      · exact le_refl _
      · cases h
    | cons b u =>
      rw [listMax_cons a (List.cons_ne_nil b u)]
      rcases List.mem_cons.mp hx with rfl | h
      · exact le_max_left _ _
      · exact le_trans (ih h) (le_max_right _ _)

lemma listMin_le {v : List ℤ} {x : ℤ} (hx : x ∈ v) : listMin v ≤ x := by
  induction v with
  | nil => cases hx
  | cons a t ih =>
    cases t with
    | nil =>
      rcases List.mem_cons.mp hx with rfl | h
      · exact le_refl _
      · cases h
    | cons b u =>
      rw [listMin_cons a (List.cons_ne_nil b u)]
      rcases List.mem_cons.mp hx with rfl | h
      · exact min_le_left _ _
      · exact le_trans (min_le_right _ _) (ih h)

lemma listMax_mem {v : List ℤ} (h : v ≠ []) : listMax v ∈ v := by
  induction v with
  | nil => exact absurd rfl h
  | cons a t ih =>
    cases t with
    | nil => exact List.mem_cons_self _ _
    | cons b u =>
      rw [listMax_cons a (List.cons_ne_nil b u)]
      rcases max_choice a (listMax (b :: u)) with hm | hm
      · rw [hm]; exact List.mem_cons_self _ _
      · rw [hm]; exact List.mem_cons_of_mem a (ih (List.cons_ne_nil b u))

lemma listMin_mem {v : List ℤ} (h : v ≠ []) : listMin v ∈ v := by
  induction v with
  | nil => exact absurd rfl h
  | cons a t ih =>
    cases t with
    | nil => exact List.mem_cons_self _ _
    | cons b u =>
      rw [listMin_cons a (List.cons_ne_nil b u)]
      rcases min_choice a (listMin (b :: u)) with hm | hm
      · rw [hm]; exact List.mem_cons_self _ _
      · rw [hm]; exact List.mem_cons_of_mem a (ih (List.cons_ne_nil b u))

lemma idxOfV_spec {v : List ℤ} {x : ℤ} (hx : x ∈ v) :
    idxOfV x v < v.length ∧ v.getD (idxOfV x v) 0 = x ∧
      ∀ j < idxOfV x v, v.getD j 0 ≠ x := by
  induction v with
  | nil => cases hx
  | cons a t ih =>
    by_cases ha : a = x
    · refine ⟨?_, ?_, ?_⟩
      · simp [idxOfV, ha]
      · simp [idxOfV, ha]
      · intro j hj
        simp [idxOfV, ha] at hj
    · have hxt : x ∈ t := by
        rcases List.mem_cons.mp hx with rfl | h
        · exact absurd rfl ha
        · exact h
      obtain ⟨ih1, ih2, ih3⟩ := ih hxt
      refine ⟨?_, ?_, ?_⟩
      · simpa [idxOfV, ha] using Nat.succ_lt_succ ih1
      · simpa [idxOfV, ha] using ih2
      · intro j hj
        simp only [idxOfV, if_neg ha] at hj
        cases j with
        | zero => simpa using ha
        | succ j' =>
          simp only [List.getD_cons_succ]
          exact ih3 j' (by omega)

/-! ### Derived-series access -/

lemma length_add_growth_and_ma (s : List Obs) :
    (add_growth_and_ma s).length = s.length := by
  simp [add_growth_and_ma]

lemma dAt_add_growth_and_ma {s : List Obs} {i : Nat} (hi : i < s.length) :
    dAt (add_growth_and_ma s) i = mkDerived s i := by
  unfold dAt add_growth_and_ma
  exact getD_range_map (mkDerived s) hi dobsDflt

lemma pctAt_of_le {v : List ℤ} {k i : Nat} (hk : k ≤ i) :
    pctAt v k i = pctVal (v.getD i 0) (v.getD (i - k) 0) := by
  unfold pctAt
  rw [if_pos hk]

lemma pctAt_of_lt {v : List ℤ} {k i : Nat} (hk : i < k) : pctAt v k i = .nan := by
  unfold pctAt
  rw [if_neg (by omega)]

lemma pctVal_of_base_ne {cur base : ℤ} (hb : base ≠ 0) :
    pctVal cur base = .fin (((cur : ℚ) / (base : ℚ) - 1) * 100) := by
  unfold pctVal
  rw [if_neg hb]

lemma pctAt_zero_base {v : List ℤ} {k i : Nat} (hk : k ≤ i) (hb : v.getD (i - k) 0 = 0) :
    (0 < v.getD i 0 → pctAt v k i = .inf) ∧ (v.getD i 0 = 0 → pctAt v k i = .nan) ∧
      (v.getD i 0 < 0 → pctAt v k i = .ninf) := by
  rw [pctAt_of_le hk, hb]
  unfold pctVal
  rw [if_pos rfl]
  refine ⟨fun h => ?_, fun h => ?_, fun h => ?_⟩
  · rw [if_neg (by omega), if_pos h]
  · rw [if_pos h]
  · rw [if_neg (by omega), if_neg (by omega)]

/-! ### The rolling mean as an index-window mean -/

lemma window4_eq_range' (v : List ℤ) {i : Nat} (hi : i < v.length) :
    window4 v i = (List.range' (i - 3) (min i 3 + 1)).map (fun j => v.getD j 0) := by
  unfold window4
  have h1 : i + 1 - 4 = i - 3 := by omega
  rw [List.drop_take, h1, show i + 1 - (i - 3) = min i 3 + 1 from by omega]
  exact drop_take_eq_range'_map v 0 (min i 3 + 1) (i - 3) (by omega)

lemma rmean4_eq_Icc (v : List ℤ) {i : Nat} (hi : i < v.length) :
    rmean4 v i = (∑ j ∈ Finset.Icc (i - 3) i, ((v.getD j 0 : ℤ) : ℚ)) /
      (((Finset.Icc (i - 3) i).card : ℕ) : ℚ) := by
  unfold rmean4
  rw [window4_eq_range' v hi, List.map_map, List.length_map, List.length_range']
  rw [list_sum_range' ((Int.cast : ℤ → ℚ) ∘ fun j => v.getD j 0) (i - 3) (min i 3 + 1)]
  have hicc : Finset.Icc (i - 3) i = Finset.Ico (i - 3) (i + 1) := rfl
  rw [hicc, Finset.sum_Ico_eq_sum_range, Nat.card_Ico,
    show i + 1 - (i - 3) = min i 3 + 1 from by omega]
  rfl

/-! ### Summary reducer helpers -/

lemma summarize_cons (a : DObs) (t : List DObs) :
    summarize_series (a :: t) = .ok
      { latest_period := ((a :: t).getLast (List.cons_ne_nil a t)).period
        latest_trend := ((a :: t).getLast (List.cons_ne_nil a t)).trend
        latest_sa := ((a :: t).getLast (List.cons_ne_nil a t)).sa
        trend_qoq_pct := notnaOpt ((a :: t).getLast (List.cons_ne_nil a t)).trend_qoq_pct
        sa_qoq_pct := notnaOpt ((a :: t).getLast (List.cons_ne_nil a t)).sa_qoq_pct
        trend_yoy_pct := notnaOpt ((a :: t).getLast (List.cons_ne_nil a t)).trend_yoy_pct
        sa_yoy_pct := notnaOpt ((a :: t).getLast (List.cons_ne_nil a t)).sa_yoy_pct
        trend_peak := listMax ((a :: t).map (fun o => o.trend))
        trend_peak_period := ((a :: t).map (fun o => o.period)).getD
          (idxOfV (listMax ((a :: t).map (fun o => o.trend)))
            ((a :: t).map (fun o => o.trend))) ""
        sa_peak := listMax ((a :: t).map (fun o => o.sa))
        sa_peak_period := ((a :: t).map (fun o => o.period)).getD
          (idxOfV (listMax ((a :: t).map (fun o => o.sa)))
            ((a :: t).map (fun o => o.sa))) ""
        trend_trough := listMin ((a :: t).map (fun o => o.trend))
        trend_trough_period := ((a :: t).map (fun o => o.period)).getD
          (idxOfV (listMin ((a :: t).map (fun o => o.trend)))
            ((a :: t).map (fun o => o.trend))) ""
        sa_trough := listMin ((a :: t).map (fun o => o.sa))
        sa_trough_period := ((a :: t).map (fun o => o.period)).getD
          (idxOfV (listMin ((a :: t).map (fun o => o.sa)))
            ((a :: t).map (fun o => o.sa))) "" } := rfl

lemma max_first_at (d : List DObs) (hne : d ≠ []) (f : DObs → ℤ) :
    idxOfV (listMax (d.map f)) (d.map f) < d.length ∧
      f (dAt d (idxOfV (listMax (d.map f)) (d.map f))) = listMax (d.map f) ∧
      (∀ j < idxOfV (listMax (d.map f)) (d.map f), f (dAt d j) ≠ listMax (d.map f)) ∧
      (∀ j < d.length, f (dAt d j) ≤ listMax (d.map f)) ∧
      (d.map (fun o => o.period)).getD (idxOfV (listMax (d.map f)) (d.map f)) "" =
        (dAt d (idxOfV (listMax (d.map f)) (d.map f))).period := by
  have hvne : d.map f ≠ [] := by
    intro hc
    exact hne (List.map_eq_nil_iff.mp hc)
  obtain ⟨hlt, hget, hfirst⟩ := idxOfV_spec (listMax_mem hvne)
  rw [List.length_map] at hlt
  refine ⟨hlt, ?_, ?_, ?_, ?_⟩
  · have h := getD_map_lt f hlt 0 dobsDflt
    show f (d.getD _ dobsDflt) = _
    rw [← h]
    exact hget
  · intro j hj
    have hjlt : j < d.length := lt_trans hj hlt
    rw [show f (dAt d j) = (d.map f).getD j 0 from (getD_map_lt f hjlt 0 dobsDflt).symm]
    exact hfirst j hj
  · intro j hj
    rw [show f (dAt d j) = (d.map f).getD j 0 from (getD_map_lt f hj 0 dobsDflt).symm]
    refine le_listMax ?_
    rw [List.getD_eq_getElem?_getD, List.getElem?_eq_getElem (by simpa using hj)]
    exact List.getElem_mem _
  · exact getD_map_lt (fun o => o.period) hlt "" dobsDflt

lemma min_first_at (d : List DObs) (hne : d ≠ []) (f : DObs → ℤ) :
    idxOfV (listMin (d.map f)) (d.map f) < d.length ∧
      f (dAt d (idxOfV (listMin (d.map f)) (d.map f))) = listMin (d.map f) ∧
      (∀ j < idxOfV (listMin (d.map f)) (d.map f), f (dAt d j) ≠ listMin (d.map f)) ∧
      (∀ j < d.length, listMin (d.map f) ≤ f (dAt d j)) ∧
      (d.map (fun o => o.period)).getD (idxOfV (listMin (d.map f)) (d.map f)) "" =
        (dAt d (idxOfV (listMin (d.map f)) (d.map f))).period := by
  have hvne : d.map f ≠ [] := by
    intro hc
    exact hne (List.map_eq_nil_iff.mp hc)
  obtain ⟨hlt, hget, hfirst⟩ := idxOfV_spec (listMin_mem hvne)
  rw [List.length_map] at hlt
  refine ⟨hlt, ?_, ?_, ?_, ?_⟩
  · have h := getD_map_lt f hlt 0 dobsDflt
    show f (d.getD _ dobsDflt) = _
    rw [← h]
    exact hget
  · intro j hj
    have hjlt : j < d.length := lt_trans hj hlt
    rw [show f (dAt d j) = (d.map f).getD j 0 from (getD_map_lt f hjlt 0 dobsDflt).symm]
    exact hfirst j hj
  · intro j hj
    rw [show f (dAt d j) = (d.map f).getD j 0 from (getD_map_lt f hj 0 dobsDflt).symm]
    refine listMin_le ?_
    rw [List.getD_eq_getElem?_getD, List.getElem?_eq_getElem (by simpa using hj)]
    exact List.getElem_mem _
  · exact getD_map_lt (fun o => o.period) hlt "" dobsDflt

/-! ### Example data (the spec's worked scenario) -/

/-- The cleaned series of the spec's example scenario
(`Mar-17 .. Mar-18`, trend 1000/1100/1050/1200/1300, SA 950/1000/1010/1080/1150). -/
def exS : List Obs :=
  [⟨"Mar-17", 1000, 950, 2017, 3⟩, ⟨"Jun-17", 1100, 1000, 2017, 6⟩,
   ⟨"Sep-17", 1050, 1010, 2017, 9⟩, ⟨"Dec-17", 1200, 1080, 2017, 12⟩,
   ⟨"Mar-18", 1300, 1150, 2018, 3⟩]

/-! ### Claims -/

/-- C3: in a derived series of length `N ≥ 1`, both quarter-over-quarter
fields are undefined (NaN) at index 0 and equal
`(value[i] / value[i-1] - 1) * 100` at every `i ≥ 1`, and both
year-over-year fields are undefined at every `i < 4` and equal
`(value[i] / value[i-4] - 1) * 100` at every `i ≥ 4` (the quotient form is
stated for a non-zero base, where the formula is defined; the zero-base
special values are the subject of the numeric-semantics claim). -/
theorem growth_offsets_spec (s : List Obs) (i : Nat) (hi : i < s.length) :
    ((dAt (add_growth_and_ma s) 0).trend_qoq_pct = FVal.nan ∧
      (dAt (add_growth_and_ma s) 0).sa_qoq_pct = FVal.nan) ∧
    (1 ≤ i → (s.map (fun o => o.trend)).getD (i - 1) 0 ≠ 0 →
      (dAt (add_growth_and_ma s) i).trend_qoq_pct =
        FVal.fin (((((s.map (fun o => o.trend)).getD i 0 : ℤ) : ℚ) /
          (((s.map (fun o => o.trend)).getD (i - 1) 0 : ℤ) : ℚ) - 1) * 100)) ∧
    (1 ≤ i → (s.map (fun o => o.sa)).getD (i - 1) 0 ≠ 0 →
      (dAt (add_growth_and_ma s) i).sa_qoq_pct =
        FVal.fin (((((s.map (fun o => o.sa)).getD i 0 : ℤ) : ℚ) /
          (((s.map (fun o => o.sa)).getD (i - 1) 0 : ℤ) : ℚ) - 1) * 100)) ∧
    (i < 4 → (dAt (add_growth_and_ma s) i).trend_yoy_pct = FVal.nan ∧
      (dAt (add_growth_and_ma s) i).sa_yoy_pct = FVal.nan) ∧
    (4 ≤ i → (s.map (fun o => o.trend)).getD (i - 4) 0 ≠ 0 →
      (dAt (add_growth_and_ma s) i).trend_yoy_pct =
        FVal.fin (((((s.map (fun o => o.trend)).getD i 0 : ℤ) : ℚ) /
          (((s.map (fun o => o.trend)).getD (i - 4) 0 : ℤ) : ℚ) - 1) * 100)) ∧
    (4 ≤ i → (s.map (fun o => o.sa)).getD (i - 4) 0 ≠ 0 →
      (dAt (add_growth_and_ma s) i).sa_yoy_pct =
        FVal.fin (((((s.map (fun o => o.sa)).getD i 0 : ℤ) : ℚ) /
          (((s.map (fun o => o.sa)).getD (i - 4) 0 : ℤ) : ℚ) - 1) * 100)) := by
  have h0 : 0 < s.length := by omega
  refine ⟨⟨?_, ?_⟩, ?_, ?_, ?_, ?_, ?_⟩
  · rw [dAt_add_growth_and_ma h0]
    show pctAt (s.map (fun o => o.trend)) 1 0 = _
    exact pctAt_of_lt (by omega)
  · rw [dAt_add_growth_and_ma h0]
    show pctAt (s.map (fun o => o.sa)) 1 0 = _
    exact pctAt_of_lt (by omega)
  · intro h1 hb
    rw [dAt_add_growth_and_ma hi]
    show pctAt (s.map (fun o => o.trend)) 1 i = _
    rw [pctAt_of_le h1, pctVal_of_base_ne hb]
  · intro h1 hb
    rw [dAt_add_growth_and_ma hi]
    show pctAt (s.map (fun o => o.sa)) 1 i = _
    rw [pctAt_of_le h1, pctVal_of_base_ne hb]
  · intro h4
    rw [dAt_add_growth_and_ma hi]
    exact ⟨pctAt_of_lt h4, pctAt_of_lt h4⟩
  · intro h4 hb
    rw [dAt_add_growth_and_ma hi]
    show pctAt (s.map (fun o => o.trend)) 4 i = _
    rw [pctAt_of_le h4, pctVal_of_base_ne hb]
  · intro h4 hb
    rw [dAt_add_growth_and_ma hi]
    show pctAt (s.map (fun o => o.sa)) 4 i = _
    rw [pctAt_of_le h4, pctVal_of_base_ne hb]

/-- C3 witness: in the example scenario, the trend QoQ field at index 0 is
NaN and the trend YoY field at index 4 is `(1300/1000 - 1) * 100 = 30`. -/
theorem growth_offsets_spec_witness :
    (dAt (add_growth_and_ma exS) 0).trend_qoq_pct = FVal.nan ∧
    (dAt (add_growth_and_ma exS) 4).trend_yoy_pct = FVal.fin 30 := by
  constructor
  · exact (growth_offsets_spec exS 4 (by norm_num [exS])).1.1
  · have h := (growth_offsets_spec exS 4 (by norm_num [exS])).2.2.2.2.1
      (by norm_num) (by decide)
    rw [h]
    norm_num [exS]

/-- C4: in a derived series, both moving-average fields at index `i` equal
the arithmetic mean of the values at indices `max(0, i-3) .. i` inclusive
(a trailing window that shrinks at the start: at index 0 it equals the raw
value at index 0). -/
theorem ma_window_spec (s : List Obs) (i : Nat) (hi : i < s.length) :
    (dAt (add_growth_and_ma s) i).trend_4q_ma =
      (∑ j ∈ Finset.Icc (i - 3) i, (((s.map (fun o => o.trend)).getD j 0 : ℤ) : ℚ)) /
        (((Finset.Icc (i - 3) i).card : ℕ) : ℚ) ∧
    (dAt (add_growth_and_ma s) i).sa_4q_ma =
      (∑ j ∈ Finset.Icc (i - 3) i, (((s.map (fun o => o.sa)).getD j 0 : ℤ) : ℚ)) /
        (((Finset.Icc (i - 3) i).card : ℕ) : ℚ) ∧
    (dAt (add_growth_and_ma s) 0).trend_4q_ma =
      (((s.map (fun o => o.trend)).getD 0 0 : ℤ) : ℚ) := by
  have h0 : 0 < s.length := by omega
  refine ⟨?_, ?_, ?_⟩
  · rw [dAt_add_growth_and_ma hi]
    show rmean4 (s.map (fun o => o.trend)) i = _
    exact rmean4_eq_Icc _ (by simpa using hi)
  · rw [dAt_add_growth_and_ma hi]
    show rmean4 (s.map (fun o => o.sa)) i = _
    exact rmean4_eq_Icc _ (by simpa using hi)
  · rw [dAt_add_growth_and_ma h0]
    show rmean4 (s.map (fun o => o.trend)) 0 = _
    rw [rmean4_eq_Icc _ (by simpa using h0)]
    simp

/-- C4 witness: in the example scenario, the SA moving average at index 4
is `mean(1000, 1010, 1080, 1150) = 1060` and at index 0 it is the raw value
950; the window at index 4 is `Icc 1 4` (the trailing 4 indices). -/
theorem ma_window_spec_witness :
    (dAt (add_growth_and_ma exS) 4).sa_4q_ma = 1060 ∧
    (dAt (add_growth_and_ma exS) 0).trend_4q_ma = 1000 := by
  constructor
  · have h := (ma_window_spec exS 4 (by norm_num [exS])).2.1
    rw [h, show (4 : Nat) - 3 = 1 from rfl,
      Finset.sum_Icc_succ_top (by norm_num), Finset.sum_Icc_succ_top (by norm_num),
      Finset.sum_Icc_succ_top (by norm_num), Finset.Icc_self, Finset.sum_singleton]
    norm_num [exS, Nat.card_Icc]
  · have h := (ma_window_spec exS 4 (by norm_num [exS])).2.2
    rw [h]
    norm_num [exS]

/-- C5: on a non-empty derived series the summary reports, for each of the
four extrema, the extremal value together with the period at the smallest
index attaining it (no earlier index carries the extremal value, and the
value bounds the whole series). -/
theorem extrema_first_occurrence (d : List DObs) (hne : d ≠ []) :
    ∃ sum, summarize_series d = .ok sum ∧
      (∃ i, i < d.length ∧ (dAt d i).trend = sum.trend_peak ∧
        sum.trend_peak_period = (dAt d i).period ∧
        (∀ j < i, (dAt d j).trend ≠ sum.trend_peak) ∧
        (∀ j < d.length, (dAt d j).trend ≤ sum.trend_peak)) ∧
      (∃ i, i < d.length ∧ (dAt d i).sa = sum.sa_peak ∧
        sum.sa_peak_period = (dAt d i).period ∧
        (∀ j < i, (dAt d j).sa ≠ sum.sa_peak) ∧
        (∀ j < d.length, (dAt d j).sa ≤ sum.sa_peak)) ∧
      (∃ i, i < d.length ∧ (dAt d i).trend = sum.trend_trough ∧
        sum.trend_trough_period = (dAt d i).period ∧
        (∀ j < i, (dAt d j).trend ≠ sum.trend_trough) ∧
        (∀ j < d.length, sum.trend_trough ≤ (dAt d j).trend)) ∧
      (∃ i, i < d.length ∧ (dAt d i).sa = sum.sa_trough ∧
        sum.sa_trough_period = (dAt d i).period ∧
        (∀ j < i, (dAt d j).sa ≠ sum.sa_trough) ∧
        (∀ j < d.length, sum.sa_trough ≤ (dAt d j).sa)) := by
  cases d with
  | nil => exact absurd rfl hne
  | cons a t =>
    rw [summarize_cons]
    refine ⟨_, rfl, ?_, ?_, ?_, ?_⟩
    · obtain ⟨h1, h2, h3, h4, h5⟩ :=
        max_first_at (a :: t) (List.cons_ne_nil a t) (fun o => o.trend)
      exact ⟨_, h1, h2, h5, h3, h4⟩
    · obtain ⟨h1, h2, h3, h4, h5⟩ :=
        max_first_at (a :: t) (List.cons_ne_nil a t) (fun o => o.sa)
      exact ⟨_, h1, h2, h5, h3, h4⟩
    · obtain ⟨h1, h2, h3, h4, h5⟩ :=
        min_first_at (a :: t) (List.cons_ne_nil a t) (fun o => o.trend)
      exact ⟨_, h1, h2, h5, h3, h4⟩
    · obtain ⟨h1, h2, h3, h4, h5⟩ :=
        min_first_at (a :: t) (List.cons_ne_nil a t) (fun o => o.sa)
      exact ⟨_, h1, h2, h5, h3, h4⟩

/-- A derived series with the spec's tie-break data
(`trend = [100, 150, 150, 120]`). -/
def exD : List DObs :=
  [⟨"Mar-17", 100, 90, 2017, 3, .nan, .nan, .nan, .nan, 100, 90⟩,
   ⟨"Jun-17", 150, 95, 2017, 6, .nan, .nan, .nan, .nan, 125, 92⟩,
   ⟨"Sep-17", 150, 96, 2017, 9, .nan, .nan, .nan, .nan, 133, 93⟩,
   ⟨"Dec-17", 120, 94, 2017, 12, .nan, .nan, .nan, .nan, 130, 94⟩]

/-- C5 witness: the first-occurrence property instantiated on the
tie-break example (trend max 150 first occurs at index 1). -/
theorem extrema_first_occurrence_witness :
    ∃ sum, summarize_series exD = .ok sum ∧
      (∃ i, i < exD.length ∧ (dAt exD i).trend = sum.trend_peak ∧
        sum.trend_peak_period = (dAt exD i).period ∧
        (∀ j < i, (dAt exD j).trend ≠ sum.trend_peak) ∧
        (∀ j < exD.length, (dAt exD j).trend ≤ sum.trend_peak)) ∧
      (∃ i, i < exD.length ∧ (dAt exD i).sa = sum.sa_peak ∧
        sum.sa_peak_period = (dAt exD i).period ∧
        (∀ j < i, (dAt exD j).sa ≠ sum.sa_peak) ∧
        (∀ j < exD.length, (dAt exD j).sa ≤ sum.sa_peak)) ∧
      (∃ i, i < exD.length ∧ (dAt exD i).trend = sum.trend_trough ∧
        sum.trend_trough_period = (dAt exD i).period ∧
        (∀ j < i, (dAt exD j).trend ≠ sum.trend_trough) ∧
        (∀ j < exD.length, sum.trend_trough ≤ (dAt exD j).trend)) ∧
      (∃ i, i < exD.length ∧ (dAt exD i).sa = sum.sa_trough ∧
        sum.sa_trough_period = (dAt exD i).period ∧
        (∀ j < i, (dAt exD j).sa ≠ sum.sa_trough) ∧
        (∀ j < exD.length, sum.sa_trough ≤ (dAt exD j).sa)) :=
  extrema_first_occurrence exD (by unfold exD; exact List.cons_ne_nil _ _)

/-- C9: the summary reducer fails with `EmptySeriesError` exactly on the
empty series; on every non-empty derived series it returns a summary
without error. -/
theorem summarize_total_on_nonempty :
    summarize_series ([] : List DObs) = .error .emptySeriesError ∧
      ∀ d : List DObs, d ≠ [] → ∃ sum, summarize_series d = .ok sum := by
  refine ⟨rfl, fun d hd => ?_⟩
  cases d with
  | nil => exact absurd rfl hd
  | cons a t => exact ⟨_, rfl⟩

/-- C9 witness: the reducer errors on `[]` and succeeds on a concrete
one-element derived series. -/
theorem summarize_total_on_nonempty_witness :
    summarize_series ([] : List DObs) = .error .emptySeriesError ∧
      ∃ sum, summarize_series
        [(⟨"Mar-17", 100, 90, 2017, 3, .nan, .nan, .nan, .nan, 100, 90⟩ : DObs)] =
        .ok sum :=
  ⟨summarize_total_on_nonempty.1,
   summarize_total_on_nonempty.2
     [⟨"Mar-17", 100, 90, 2017, 3, .nan, .nan, .nan, .nan, 100, 90⟩]
     (List.cons_ne_nil _ _)⟩

/-! ### Round trip: export then re-load -/

lemma export_add (s : List Obs) :
    export_cleaned (add_growth_and_ma s) =
      ⟨"Period", "Trend", "Seasonally adjusted"⟩ ::
        s.map (fun o => ⟨o.period, intToStr o.trend, intToStr o.sa⟩) := by
  unfold export_cleaned add_growth_and_ma
  refine congrArg₂ _ rfl ?_
  rw [List.map_map]
  have hc : ((fun o : DObs => (⟨o.period, intToStr o.trend, intToStr o.sa⟩ : RawRow)) ∘
      mkDerived s) = (fun i =>
        (fun o : Obs => (⟨o.period, intToStr o.trend, intToStr o.sa⟩ : RawRow))
          (s.getD i obsDflt)) := by
    funext i
    rfl
  rw [hc]
  exact map_getD_range s
    (fun o => (⟨o.period, intToStr o.trend, intToStr o.sa⟩ : RawRow)) obsDflt

/-- Uniqueness of the sorted order when date keys are strictly increasing:
a weakly sorted permutation of a strictly sorted list is that list.  This
is what makes the round trip below independent of the sort's tie
behaviour. -/
lemma perm_sorted_strict_eq : ∀ {l₁ l₂ : List Obs}, l₁.Perm l₂ →
    List.Sorted obsLe l₁ → List.Pairwise (fun a b => dateKey a < dateKey b) l₂ →
    l₁ = l₂ := by
  intro l₁ l₂ hperm hsort hstrict
  induction l₂ generalizing l₁ with
  | nil => exact hperm.eq_nil
  | cons b t₂ ih =>
    cases l₁ with
    | nil => exact absurd hperm.symm.eq_nil (List.cons_ne_nil b t₂)
    | cons a t₁ =>
      have hab : a = b := by
        by_contra hne
        have ha2 : a ∈ b :: t₂ := hperm.mem_iff.mp (List.mem_cons_self a t₁)
        have hb1 : b ∈ a :: t₁ := hperm.mem_iff.mpr (List.mem_cons_self b t₂)
        have hat2 : a ∈ t₂ := by
          rcases List.mem_cons.mp ha2 with h | h
          · exact absurd h hne
          · exact h
        have hbt1 : b ∈ t₁ := by
          rcases List.mem_cons.mp hb1 with h | h
          · exact absurd h.symm hne
          · exact h
        have h1 : dateKey b < dateKey a := (List.pairwise_cons.mp hstrict).1 a hat2
        have h2 : obsLe a b := (List.sorted_cons.mp hsort).1 b hbt1
        unfold obsLe at h2
        omega
      subst hab
      have hperm2 : t₁.Perm t₂ := hperm.cons_inv
      rw [ih hperm2 (List.sorted_cons.mp hsort).2 (List.pairwise_cons.mp hstrict).2]

/-- Round trip for a series with strictly increasing dates (no duplicate
periods): re-loading the exported table through the loader (whose
`skiprows=1` consumes the export's header line as the title line)
reproduces the series exactly.  The proof closes with
`perm_sorted_strict_eq`, so the conclusion holds for *any* correct sort,
not only the model's insertion sort; the order among duplicate-period
rows, which the code's unstable quicksort leaves unspecified, is
deliberately outside this statement. -/
theorem export_load_roundtrip_strict (lines : List RawRow) (s : List Obs)
    (h : load_dwellings_csv lines = .ok s)
    (hstrict : List.Pairwise (fun a b => dateKey a < dateKey b) s) :
    load_dwellings_csv (export_cleaned (add_growth_and_ma s)) = .ok s := by
  unfold load_dwellings_csv at h
  have hinv := load_rows_ok_inv h
  have hfields : ∀ o ∈ s,
      periodPat o.period = true ∧ parsePeriod o.period = some (o.year, o.month) := by
    intro o ho
    obtain ⟨r, _, hfil, hcr⟩ := hinv o ho
    obtain ⟨hper, _, _, hp⟩ := coerceRow_ok hcr
    constructor
    · rw [hper]
      exact hfil
    · rw [hper]
      exact hp
  rw [export_add]
  show load_rows (s.map (fun o => ⟨o.period, intToStr o.trend, intToStr o.sa⟩)) = .ok s
  unfold load_rows
  have hfil : (s.map (fun o =>
      (⟨o.period, intToStr o.trend, intToStr o.sa⟩ : RawRow))).filter rowFilter =
      s.map (fun o => ⟨o.period, intToStr o.trend, intToStr o.sa⟩) := by
    refine List.filter_eq_self.mpr ?_
    intro r hr
    obtain ⟨o, ho, rfl⟩ := List.mem_map.mp hr
    show periodPat o.period = true
    exact (hfields o ho).1
  have hcoerce : ∀ o ∈ s, coerceRow
      ((fun o : Obs => (⟨o.period, intToStr o.trend, intToStr o.sa⟩ : RawRow)) o) = .ok o := by
    intro o ho
    refine coerceRow_of_fields rfl ?_ ?_ ?_
    · show parseIntPy (stripCommas (intToStr o.trend)) = some o.trend
      rw [stripCommas_intToStr, parseIntPy_intToStr]
    · show parseIntPy (stripCommas (intToStr o.sa)) = some o.sa
      rw [stripCommas_intToStr, parseIntPy_intToStr]
    · exact (hfields o ho).2
  rw [hfil, coerceAll_map hcoerce]
  show Except.ok (List.insertionSort obsLe s) = .ok s
  rw [perm_sorted_strict_eq (List.perm_insertionSort obsLe s)
    (List.sorted_insertionSort obsLe s) hstrict]

/-- The strict-dates round trip evaluated on a concretely loaded two-row
input with distinct dates. -/
theorem export_load_roundtrip_strict_instance :
    List.Pairwise (fun a b => dateKey a < dateKey b)
      [(⟨"Mar-17", 1000, 950, 2017, 3⟩ : Obs), ⟨"Jun-17", 1100, 1000, 2017, 6⟩] ∧
    load_dwellings_csv (export_cleaned (add_growth_and_ma
      [⟨"Mar-17", 1000, 950, 2017, 3⟩, ⟨"Jun-17", 1100, 1000, 2017, 6⟩])) =
      .ok [⟨"Mar-17", 1000, 950, 2017, 3⟩, ⟨"Jun-17", 1100, 1000, 2017, 6⟩] :=
  ⟨by decide,
   export_load_roundtrip_strict
    [⟨"Dwellings title", "", ""⟩, ⟨"Jun-17", "1,100", "1,000"⟩, ⟨"Mar-17", "1,000", "950"⟩]
    [⟨"Mar-17", 1000, 950, 2017, 3⟩, ⟨"Jun-17", 1100, 1000, 2017, 6⟩] rfl (by decide)⟩

/-! ### Loader failure policy -/

/-- C1 counterexample: on an input whose filtered-and-coerced result is
empty, the loader returns an empty series without raising any error. -/
theorem load_empty_silent_counterexample :
    load_dwellings_csv [⟨"Dwellings commenced", "", ""⟩, ⟨"TOTAL", "", ""⟩] =
      .ok [] := rfl

/-- C1 amended: whenever no data row survives the filter, the loader
returns the empty series successfully (it never raises on an empty
result). -/
theorem load_empty_result_returns_ok (t : RawRow) (rows : List RawRow)
    (hfil : rows.filter rowFilter = []) : load_dwellings_csv (t :: rows) = .ok [] := by
  show load_rows rows = .ok []
  unfold load_rows
  rw [hfil]
  rfl

/-- C1 witness: the amended statement evaluated on a concrete junk-only
input. -/
theorem load_empty_result_returns_ok_witness :
    ([⟨"Source: ABS", "", ""⟩] : List RawRow).filter rowFilter = [] ∧
      load_dwellings_csv [⟨"Title row", "", ""⟩, ⟨"Source: ABS", "", ""⟩] = .ok [] :=
  ⟨rfl, load_empty_result_returns_ok ⟨"Title row", "", ""⟩ [⟨"Source: ABS", "", ""⟩] rfl⟩

/-- C2 counterexample: a coercion failure on one surviving row (a numeric
cell with a non-digit residue) aborts the whole load, it does not merely
exclude that row. -/
theorem coercion_failure_fatal_counterexample :
    load_dwellings_csv [⟨"t", "", ""⟩, ⟨"Mar-17", "1,000", "950"⟩,
      ⟨"Jun-17", "1,1x0", "1,000"⟩] = .error .valueError := rfl

/-- C2 amended: exclusion is per-row only at the filter stage — a row not
matching the period pattern is dropped without affecting the load — while
a coercion failure on any row that passes the filter is fatal to the whole
load. -/
theorem row_failure_policy :
    (∀ (t r : RawRow) (l1 l2 : List RawRow), rowFilter r = false →
      load_dwellings_csv (t :: (l1 ++ r :: l2)) = load_dwellings_csv (t :: (l1 ++ l2))) ∧
    (∀ (t r : RawRow) (rows : List RawRow), r ∈ rows → rowFilter r = true →
      coerceRow r = .error .valueError →
      load_dwellings_csv (t :: rows) = .error .valueError) := by
  constructor
  · intro t r l1 l2 hf
    show load_rows (l1 ++ r :: l2) = load_rows (l1 ++ l2)
    unfold load_rows
    have hr : (r :: l2).filter rowFilter = l2.filter rowFilter := by
      simp [List.filter_cons, hf]
    rw [List.filter_append, hr, ← List.filter_append]
  · intro t r rows hr hf he
    show load_rows rows = _
    unfold load_rows
    rw [coerceAll_error_of_mem (List.mem_filter.mpr ⟨hr, hf⟩) he]
    rfl

/-- C2 witness: the amended policy evaluated concretely — dropping a
junk row leaves the load unchanged, and one bad numeric cell on a
filter-passing row kills the load. -/
theorem row_failure_policy_witness :
    load_dwellings_csv [⟨"t", "", ""⟩, ⟨"Mar-17", "1,000", "950"⟩,
        ⟨"TOTAL", "", ""⟩] =
      load_dwellings_csv [⟨"t", "", ""⟩, ⟨"Mar-17", "1,000", "950"⟩] ∧
    load_dwellings_csv [⟨"t", "", ""⟩, ⟨"Jun-17", "abc", "1,000"⟩] =
      .error .valueError :=
  ⟨row_failure_policy.1 ⟨"t", "", ""⟩ ⟨"TOTAL", "", ""⟩
      [⟨"Mar-17", "1,000", "950"⟩] [] rfl,
   row_failure_policy.2 ⟨"t", "", ""⟩ ⟨"Jun-17", "abc", "1,000"⟩
      [⟨"Jun-17", "abc", "1,000"⟩] (List.mem_singleton.mpr rfl) rfl rfl⟩

/-! ### Two-digit-year pivot -/

/-- C6 counterexample: the label `Mar-75` is coerced to year 1975, not
`2000 + 75 = 2075`. -/
theorem century_pivot_counterexample :
    load_dwellings_csv [⟨"t", "", ""⟩, ⟨"Mar-75", "1,000", "950"⟩] =
      .ok [⟨"Mar-75", 1000, 950, 1975, 3⟩] ∧ (1975 : Nat) ≠ 2000 + 75 :=
  ⟨rfl, by norm_num⟩

/-- C6 amended: the two-digit year `YY` of every surviving row's label maps
to `2000 + YY` only for `YY ≤ 68`; for `YY ≥ 69` it maps to `1900 + YY`
(the `strptime` pivot). -/
theorem century_pivot_amended (lines : List RawRow) (s : List Obs)
    (h : load_dwellings_csv lines = .ok s) : ∀ o ∈ s,
    (yyOf o.period ≤ 68 → o.year = 2000 + yyOf o.period) ∧
      (69 ≤ yyOf o.period → o.year = 1900 + yyOf o.period) := by
  intro o ho
  unfold load_dwellings_csv at h
  obtain ⟨r, _, _, hcr⟩ := load_rows_ok_inv h o ho
  obtain ⟨hper, _, _, hp⟩ := coerceRow_ok hcr
  rw [hper]
  unfold parsePeriod at hp
  split at hp
  · next a b c hy d e heq =>
    split at hp
    · cases hm : monthAbbrev a b c with
      | none => rw [hm] at hp; cases hp
      | some m =>
        rw [hm] at hp
        simp only [Option.map_some'] at hp
        have hy2 : o.year = pivotYear (10 * digVal d + digVal e) := by
          injection hp with hpair
          exact (congrArg Prod.fst hpair).symm
        have hyy : yyOf r.period = 10 * digVal d + digVal e := by
          unfold yyOf
          rw [heq]
        rw [hyy, hy2]
        unfold pivotYear
        constructor <;> intro hle
        · rw [if_pos hle]
        · rw [if_neg (by omega)]
    · cases hp
  · cases hp

/-- C6 witness: the amended mapping evaluated on the loaded `Mar-17` row
(year 2017 = 2000 + 17). -/
theorem century_pivot_amended_witness :
    (yyOf (Obs.period ⟨"Mar-17", 1000, 950, 2017, 3⟩) ≤ 68 →
      Obs.year ⟨"Mar-17", 1000, 950, 2017, 3⟩ =
        2000 + yyOf (Obs.period ⟨"Mar-17", 1000, 950, 2017, 3⟩)) ∧
    (69 ≤ yyOf (Obs.period ⟨"Mar-17", 1000, 950, 2017, 3⟩) →
      Obs.year ⟨"Mar-17", 1000, 950, 2017, 3⟩ =
        1900 + yyOf (Obs.period ⟨"Mar-17", 1000, 950, 2017, 3⟩)) :=
  century_pivot_amended [⟨"t", "", ""⟩, ⟨"Mar-17", "1,000", "950"⟩]
    [⟨"Mar-17", 1000, 950, 2017, 3⟩] rfl
    ⟨"Mar-17", 1000, 950, 2017, 3⟩ (List.mem_singleton.mpr rfl)

/-! ### Zero growth base -/

/-- C7 counterexample: a zero base with a non-zero current value yields the
sentinel float `inf`, which the summary propagates as a present value —
not an explicit "no value". -/
theorem zero_base_counterexample :
    (summarize_series (add_growth_and_ma
      [⟨"Mar-17", 0, 5, 2017, 3⟩, ⟨"Jun-17", 100, 0, 2017, 6⟩])).map
        (fun x => x.trend_qoq_pct) = .ok (some FVal.inf) ∧
      some FVal.inf ≠ (none : Option FVal) := ⟨rfl, by simp⟩

/-- C7 amended: on a zero growth base the field is NaN (reported as null)
only when the current value is also zero; a non-zero current value gives
`inf` or `-inf`, and the summary reports those as present values (`notna`
lets the infinities through and drops only NaN). -/
theorem zero_base_amended (s : List Obs) (i : Nat) (hi : i < s.length) :
    (1 ≤ i → (s.map (fun o => o.trend)).getD (i - 1) 0 = 0 →
      ((0 < (s.map (fun o => o.trend)).getD i 0 →
        (dAt (add_growth_and_ma s) i).trend_qoq_pct = FVal.inf) ∧
       ((s.map (fun o => o.trend)).getD i 0 = 0 →
        (dAt (add_growth_and_ma s) i).trend_qoq_pct = FVal.nan) ∧
       ((s.map (fun o => o.trend)).getD i 0 < 0 →
        (dAt (add_growth_and_ma s) i).trend_qoq_pct = FVal.ninf))) ∧
    (1 ≤ i → (s.map (fun o => o.sa)).getD (i - 1) 0 = 0 →
      ((0 < (s.map (fun o => o.sa)).getD i 0 →
        (dAt (add_growth_and_ma s) i).sa_qoq_pct = FVal.inf) ∧
       ((s.map (fun o => o.sa)).getD i 0 = 0 →
        (dAt (add_growth_and_ma s) i).sa_qoq_pct = FVal.nan) ∧
       ((s.map (fun o => o.sa)).getD i 0 < 0 →
        (dAt (add_growth_and_ma s) i).sa_qoq_pct = FVal.ninf))) ∧
    (4 ≤ i → (s.map (fun o => o.trend)).getD (i - 4) 0 = 0 →
      ((0 < (s.map (fun o => o.trend)).getD i 0 →
        (dAt (add_growth_and_ma s) i).trend_yoy_pct = FVal.inf) ∧
       ((s.map (fun o => o.trend)).getD i 0 = 0 →
        (dAt (add_growth_and_ma s) i).trend_yoy_pct = FVal.nan) ∧
       ((s.map (fun o => o.trend)).getD i 0 < 0 →
        (dAt (add_growth_and_ma s) i).trend_yoy_pct = FVal.ninf))) ∧
    (4 ≤ i → (s.map (fun o => o.sa)).getD (i - 4) 0 = 0 →
      ((0 < (s.map (fun o => o.sa)).getD i 0 →
        (dAt (add_growth_and_ma s) i).sa_yoy_pct = FVal.inf) ∧
       ((s.map (fun o => o.sa)).getD i 0 = 0 →
        (dAt (add_growth_and_ma s) i).sa_yoy_pct = FVal.nan) ∧
       ((s.map (fun o => o.sa)).getD i 0 < 0 →
        (dAt (add_growth_and_ma s) i).sa_yoy_pct = FVal.ninf))) ∧
    notnaOpt FVal.inf = some FVal.inf ∧
    notnaOpt FVal.ninf = some FVal.ninf ∧
    notnaOpt FVal.nan = none := by
  refine ⟨?_, ?_, ?_, ?_, rfl, rfl, rfl⟩ <;>
    intro hk hb <;> rw [dAt_add_growth_and_ma hi] <;> exact pctAt_zero_base hk hb

/-- C7 witness: the amended behaviour evaluated on a concrete series with
`trend = [0, 100]`. -/
theorem zero_base_amended_witness :
    (dAt (add_growth_and_ma
      [⟨"Mar-17", 0, 5, 2017, 3⟩, ⟨"Jun-17", 100, 0, 2017, 6⟩]) 1).trend_qoq_pct =
      FVal.inf ∧ notnaOpt FVal.nan = none := by
  have h := zero_base_amended
    [⟨"Mar-17", 0, 5, 2017, 3⟩, ⟨"Jun-17", 100, 0, 2017, 6⟩] 1 (by norm_num)
  exact ⟨(h.1 (le_refl 1) (by decide)).1 (by decide), h.2.2.2.2.2.2⟩

/-! ### Sign of loaded values -/

/-- C10 counterexample: a negative numeric cell parses and survives — the
loader emits an observation with a negative trend value. -/
theorem negative_value_counterexample :
    load_dwellings_csv [⟨"t", "", ""⟩, ⟨"Mar-17", "-5", "950"⟩] =
      .ok [⟨"Mar-17", -5, 950, 2017, 3⟩] ∧ ((-5 : ℤ) < 0) := ⟨rfl, by norm_num⟩

/-- C10 amended: every loaded observation carries exactly the integers its
source cells parse to (after comma stripping); the sign is not validated,
so non-negativity is not an invariant of the loader. -/
theorem loaded_values_from_cells (lines : List RawRow) (s : List Obs)
    (h : load_dwellings_csv lines = .ok s) : ∀ o ∈ s, ∃ r ∈ lines.drop 1,
      rowFilter r = true ∧ parseIntPy (stripCommas r.trendText) = some o.trend ∧
        parseIntPy (stripCommas r.saText) = some o.sa := by
  intro o ho
  unfold load_dwellings_csv at h
  obtain ⟨r, hrl, hfil, hcr⟩ := load_rows_ok_inv h o ho
  obtain ⟨_, ht, hv, _⟩ := coerceRow_ok hcr
  exact ⟨r, hrl, hfil, ht, hv⟩

/-- C10 witness: cell provenance evaluated on the negative-cell input. -/
theorem loaded_values_from_cells_witness :
    ∃ r ∈ ([⟨"t", "", ""⟩, ⟨"Mar-17", "-5", "950"⟩] : List RawRow).drop 1,
      rowFilter r = true ∧
      parseIntPy (stripCommas r.trendText) = some (-5 : ℤ) ∧
      parseIntPy (stripCommas r.saText) = some (950 : ℤ) :=
  loaded_values_from_cells [⟨"t", "", ""⟩, ⟨"Mar-17", "-5", "950"⟩]
    [⟨"Mar-17", -5, 950, 2017, 3⟩] rfl
    ⟨"Mar-17", -5, 950, 2017, 3⟩ (List.mem_singleton.mpr rfl)
